import Mathlib

/-!
# REACAudioEngine: a shallow embedding of `src/REACAudioEngine.cpp`

The engine object is a record of its member variables; every member function is a
function on that record.  Conventions of the embedding:

* `UInt32` / `UInt64` members are natural numbers, and every arithmetic operation the
  source performs on them is followed by the reduction `% 2^32` / `% 2^64`.
* C `int` values that are never negative (byte counts, channel counts, loop indices)
  are natural numbers; `numSamples`, an `int` parameter, is an integer.  Signed overflow
  is undefined in C and is not modelled.
* Raw memory (a sample buffer, the wire block handed to `gotSamples`, a per-channel
  array) is a total function from the index relative to its base pointer to the stored
  value.  A store is `Function.update` at the index the source computes, whatever the
  declared size of the object is; the declared size is kept next to it.
* Calls into the host framework whose outcome the engine cannot determine (allocation,
  stream creation, dictionary lookup) are read from an explicit record of outcomes.
-/

namespace REAC

/-! ## Machine arithmetic -/

/-- Reduction of a natural number to an unsigned 32-bit value. -/
def u32 (n : Nat) : Nat := n % 2 ^ 32

/-- Reduction of a natural number to an unsigned 64-bit value. -/
def u64 (n : Nat) : Nat := n % 2 ^ 64

/-- Conversion of a C int to size_t (the length argument of memset). -/
def sizeT (z : Int) : Nat := (z % 2 ^ 64).toNat

/-! ## Data model -/

/-- One byte. -/
abbrev Byte := Fin 256

/-- Bytes addressed by their index relative to a base pointer. -/
abbrev Memory := Nat → Byte

/-- A single store: destination index and the byte stored. -/
abbrev Write := Nat × Byte

/-- The fields of IOAudioStreamFormat that the engine reads. -/
structure StreamFormat where
  fNumChannels : Nat
  fBitWidth : Nat
deriving DecidableEq, Repr

/-- The fields of IOAudioSampleRate. -/
structure SampleRate where
  whole : Nat
  fraction : Nat
deriving DecidableEq, Repr

/-- Operating role reported by the protocol object. -/
inductive Mode where
  | REAC_MASTER
  | REAC_SLAVE
  | REAC_SPLIT
deriving DecidableEq, Repr

/-- What the engine reads from its protocol collaborator:
the device info channel counts and the mode. -/
structure Protocol where
  in_channels : Nat
  out_channels : Nat
  mode : Mode
deriving DecidableEq, Repr

/-- Messages the engine writes to the kernel log. -/
inductive Diagnostic where
  | initHardwareFailed
  | couldNotCreateStreams
  | couldNotInitStreams
  | formatDictIsNull
  | errorInCreateFormat
  | allocatingInputBuffer (bytes : Nat)
  | errorAllocatingInputBuffer (bytes : Nat)
  | allocatingOutputBuffer (bytes : Nat)
  | errorAllocatingOutputBuffer (bytes : Nat)
  | createAudioStreamsError
  | createAudioStreamsFailed
  | unsupportedMode
  | failedToAddControl
deriving DecidableEq, Repr

/-- Status codes returned to the host framework. -/
inductive IOReturn where
  | kIOReturnSuccess
  | kIOReturnBadArgument
deriving DecidableEq, Repr

/-- The kind of an audio control created by initControls. -/
inductive ControlKind where
  | outputVolume
  | inputGain
  | outputMute
  | inputMute
deriving DecidableEq, Repr

/-- An IOAudioControl as far as the engine uses it: its kind, channel id and control id. -/
structure AudioControl where
  kind : ControlKind
  channelID : Nat
  controlID : Nat
deriving DecidableEq, Repr

/-- Modelled from the spec: REACAudioEngine.h, which declares the per-channel arrays, is
not part of the sources; each array has one element per channel id in 0..16. -/
def numChannelSlots : Nat := 17

/-- The member variables of REACAudioEngine, together with the part of the inherited
IOAudioEngine state that the member functions change.  The class declaration
(REACAudioEngine.h) is not part of the sources: the members are those the member functions
use, the integer members being unsigned 32-bit (blockTimeoutNS and nextTime 64-bit). -/
structure Engine where
  /-- The protocol object the engine was initialised with. -/
  protocol : Protocol
  numBlocks : Nat
  blockSize : Nat
  currentBlock : Nat
  /-- Input sample buffer; none is the NULL pointer. -/
  mInBuffer : Option Memory
  /-- Output sample buffer; none is the NULL pointer. -/
  mOutBuffer : Option Memory
  mInBufferSize : Nat
  mOutBufferSize : Nat
  /-- Whether the inputStream pointer is non-NULL. -/
  inputStream : Bool
  /-- Whether the outputStream pointer is non-NULL. -/
  outputStream : Bool
  /-- The format member of the input stream. -/
  inputFormat : StreamFormat
  /-- The format member of the output stream. -/
  outputFormat : StreamFormat
  /-- Whether the streams were handed their sample buffers and registered. -/
  streamsAdded : Bool
  duringHardwareInit : Bool
  mLastValidSampleFrame : Nat
  blockTimeoutNS : Nat
  nextTime : Nat
  /-- Inherited: number of times the loop count was incremented. -/
  loopCount : Nat
  /-- Inherited: number of timestamps taken. -/
  timeStamps : Nat
  /-- Inherited: sample rate set by setSampleRate. -/
  sampleRate : SampleRate
  /-- Inherited: value set by setSampleOffset. -/
  sampleOffset : Nat
  /-- Inherited: value set by setNumSampleFramesPerBuffer. -/
  numSampleFramesPerBuffer : Nat
  /-- Per-channel volume, indexed by channel id; elements 0..16 are declared. -/
  mVolume : Nat → Int
  /-- Per-channel gain, indexed by channel id; elements 0..16 are declared. -/
  mGain : Nat → Int
  /-- Per-channel output mute (a bool, as the spec gives it), indexed by channel id. -/
  mMuteOut : Nat → Bool
  /-- Per-channel input mute (a bool, as the spec gives it), indexed by channel id. -/
  mMuteIn : Nat → Bool
  /-- Whether audioControlWeakSelfReference is non-NULL. -/
  audioControlWeakSelfReference : Bool
  /-- Inherited: the default audio controls registered so far. -/
  controls : List AudioControl
  /-- The kernel log lines written by the engine. -/
  log : List Diagnostic

/-! ## Timestamps (inherited from IOAudioEngine) -/

/-- The inherited takeTimeStamp, as the comment in performAudioEngineStart describes it:
it records the current time and, unless false is passed, increments the loop count. -/
def takeTimeStamp (e : Engine) (incrementLoopCount : Bool) : Engine :=
  { e with
    timeStamps := e.timeStamps + 1
    loopCount := if incrementLoopCount then e.loopCount + 1 else e.loopCount }

/-! ## Stores into raw memory -/

/-- Perform a list of stores in order. -/
def applyWrites (m : Memory) (ws : List Write) : Memory :=
  ws.foldl (fun acc w => Function.update acc w.1 w.2) m

/-- The stores of memset(base, 0, len). -/
def memsetWrites (base len : Nat) : List Write :=
  (List.range len).map fun k => (base + k, (0 : Byte))

/-! ## gotSamples -/

/-- The local bytesPerSample of gotSamples: fBitWidth/8 * numChannels. -/
def bytesPerSample (e : Engine) : Nat :=
  e.inputFormat.fBitWidth / 8 * e.inputFormat.fNumChannels

/-- The local resolution of gotSamples: fBitWidth/8. -/
def resolution (e : Engine) : Nat :=
  e.inputFormat.fBitWidth / 8

/-- The offset of the local inBuffer from mInBuffer in gotSamples:
currentBlock*blockSize*bytesPerSample, evaluated in unsigned 32-bit arithmetic. -/
def blockOffset (e : Engine) : Nat :=
  u32 (u32 (e.currentBlock * e.blockSize) * u32 (bytesPerSample e))

/-- The body of the inner loop of gotSamples for frame i and channel j: the three stores
through currentInBuf. -/
def channelWrites (samples : Memory) (inBuffer bps res i j : Nat) : List Write :=
  let offset := bps * i + res * (j / 2)
  let currentInBuf := inBuffer + bps * i + res * j
  if j % 2 = 0 then
    [ (currentInBuf + 0, samples (offset + 3)),
      (currentInBuf + 1, samples (offset + 0)),
      (currentInBuf + 2, samples (offset + 1)) ]
  else
    [ (currentInBuf + 0, samples (offset + 4)),
      (currentInBuf + 1, samples (offset + 5)),
      (currentInBuf + 2, samples (offset + 2)) ]

/-- The stores of the two nested loops of gotSamples, in program order. -/
def remapWrites (samples : Memory) (inBuffer bps res : Nat) (numSamples : Int)
    (actualNumChannels : Nat) : List Write :=
  (List.range numSamples.toNat).flatMap fun i =>
    (List.range actualNumChannels).flatMap fun j =>
      channelWrites samples inBuffer bps res i j

/-- The byte the remap stores at position k (0, 1 or 2) of channel j in frame i. -/
def remapByte (samples : Memory) (bps res i j k : Nat) : Byte :=
  let offset := bps * i + res * (j / 2)
  if j % 2 = 0 then
    (if k = 0 then samples (offset + 3) else if k = 1 then samples (offset + 0)
      else samples (offset + 1))
  else
    (if k = 0 then samples (offset + 4) else if k = 1 then samples (offset + 5)
      else samples (offset + 2))

/-- Every store gotSamples performs into the input buffer when the buffer is allocated:
the memset followed by the remap loops.  Indices are relative to mInBuffer. -/
def gotSamplesWrites (e : Engine) (numSamples : Int) (samples : Memory) : List Write :=
  let bps := bytesPerSample e
  let res := resolution e
  let inBuffer := blockOffset e
  let actualNumChannels := e.protocol.in_channels
  memsetWrites inBuffer (sizeT (numSamples * (bps : Int)))
    ++ remapWrites samples inBuffer bps res numSamples actualNumChannels

/-- The switch on the protocol mode in gotSamples: it only writes a log line. -/
def reportMode (e : Engine) : Engine :=
  match e.protocol.mode with
  | Mode.REAC_SPLIT => e
  | Mode.REAC_MASTER => { e with log := e.log ++ [Diagnostic.unsupportedMode] }
  | Mode.REAC_SLAVE => { e with log := e.log ++ [Diagnostic.unsupportedMode] }

/-- The last four lines of gotSamples: currentBlock++ and the wrap with its timestamp. -/
def advanceBlock (e : Engine) : Engine :=
  let e1 := { e with currentBlock := u32 (e.currentBlock + 1) }
  if e1.currentBlock ≥ e1.numBlocks then
    takeTimeStamp { e1 with currentBlock := 0 } true
  else
    e1

/-- REACAudioEngine::gotSamples(numSamples, samples). -/
def gotSamples (e : Engine) (numSamples : Int) (samples : Memory) : Engine :=
  match e.mInBuffer with
  | none => e
  | some mem =>
    let e1 := { e with mInBuffer := some (applyWrites mem (gotSamplesWrites e numSamples samples)) }
    advanceBlock (reportMode e1)

/-! ## Start, stop, position -/

/-- REACAudioEngine::performAudioEngineStart. -/
def performAudioEngineStart (e : Engine) : IOReturn × Engine :=
  let e1 := takeTimeStamp e false
  (IOReturn.kIOReturnSuccess, { e1 with currentBlock := 0 })

/-- REACAudioEngine::performAudioEngineStop. -/
def performAudioEngineStop (e : Engine) : IOReturn × Engine :=
  (IOReturn.kIOReturnSuccess, e)

/-- REACAudioEngine::getCurrentSampleFrame. -/
def getCurrentSampleFrame (e : Engine) : Nat :=
  u32 (e.currentBlock * e.blockSize)

/-- A sequence of deliveries: gotSamples called once per element, in order. -/
def deliverAll (e : Engine) (blocks : List (Int × Memory)) : Engine :=
  blocks.foldl (fun acc b => gotSamples acc b.1 b.2) e

/-! ## Block period -/

/-- The three statements that compute the block period, in initHardware and again in
performFormatChange: a 64-bit variable is loaded with blockSize, multiplied by
1000000000 and divided by the whole part of the sample rate. -/
def blockPeriodNS (blockSize whole : Nat) : Nat :=
  let t0 := u64 blockSize
  let t1 := u64 (t0 * 1000000000)
  t1 / whole

/-- REACAudioEngine::performFormatChange.  The audioStream argument is not used. -/
def performFormatChange (e : Engine) (newFormat : Option StreamFormat)
    (newSampleRate : Option SampleRate) : IOReturn × Engine :=
  let _ := newFormat
  match newSampleRate with
  | some rate =>
    if !e.duringHardwareInit then
      (IOReturn.kIOReturnSuccess, { e with blockTimeoutNS := blockPeriodNS e.blockSize rate.whole })
    else
      (IOReturn.kIOReturnSuccess, e)
  | none => (IOReturn.kIOReturnSuccess, e)

/-! ## Bring-up -/

/-- Constants of REACProtocol.h used by the engine; the header is not part of the
sources, so they are parameters. -/
structure Constants where
  REAC_SAMPLES_PER_PACKET : Nat
  REAC_SAMPLE_RATE : Nat
  REAC_RESOLUTION : Nat
deriving DecidableEq, Repr

/-- The default number of blocks, NUM_BLOCKS. -/
def NUM_BLOCKS : Nat := 1024

/-- The default block size, BLOCK_SIZE. -/
def BLOCK_SIZE (K : Constants) : Nat := K.REAC_SAMPLES_PER_PACKET

/-- The entries of the property dictionary that init reads. -/
structure Properties where
  /-- The OSNumber stored under NUM_BLOCKS_KEY, if there is one. -/
  numBlocksKey : Option Nat
  /-- The OSNumber stored under BLOCK_SIZE_KEY, if there is one. -/
  blockSizeKey : Option Nat
deriving DecidableEq, Repr

/-- REACAudioEngine::init on a newly constructed (zero-filled) object.  The result is
none when init returns false. -/
def init (K : Constants) (proto : Option Protocol) (superInit : Bool) (properties : Properties) :
    Option Engine :=
  match proto with
  | none => none
  | some p =>
    if !superInit then none
    else
      some
        { protocol := p
          numBlocks := match properties.numBlocksKey with
            | some n => u32 n
            | none => NUM_BLOCKS
          blockSize := match properties.blockSizeKey with
            | some n => u32 n
            | none => BLOCK_SIZE K
          currentBlock := 0
          mInBuffer := none
          mOutBuffer := none
          mInBufferSize := 0
          mOutBufferSize := 0
          inputStream := false
          outputStream := false
          inputFormat := ⟨0, 0⟩
          outputFormat := ⟨0, 0⟩
          streamsAdded := false
          duringHardwareInit := false
          mLastValidSampleFrame := 0
          blockTimeoutNS := 0
          nextTime := 0
          loopCount := 0
          timeStamps := 0
          sampleRate := ⟨0, 0⟩
          sampleOffset := 0
          numSampleFramesPerBuffer := 0
          mVolume := fun _ => 0
          mGain := fun _ => 0
          mMuteOut := fun _ => false
          mMuteIn := fun _ => false
          audioControlWeakSelfReference := false
          controls := []
          log := [] }

/-- Outcomes of the framework and allocator calls made by createAudioStreams. -/
structure StreamOutcomes where
  /-- Whether new IOAudioStream returned an object, for the input stream. -/
  newInputStream : Bool
  /-- Whether new IOAudioStream returned an object, for the output stream. -/
  newOutputStream : Bool
  initInputStream : Bool
  initOutputStream : Bool
  /-- Whether the property under IN_FORMAT_KEY is a dictionary. -/
  inFormatDict : Bool
  /-- Whether the property under OUT_FORMAT_KEY is a dictionary. -/
  outFormatDict : Bool
  /-- Result of createFormatFromDictionary on the input dictionary. -/
  inFormat : Option StreamFormat
  /-- Result of createFormatFromDictionary on the output dictionary. -/
  outFormat : Option StreamFormat
  /-- Result of IOMalloc for the input buffer. -/
  mallocIn : Option Memory
  /-- Result of IOMalloc for the output buffer. -/
  mallocOut : Option Memory

/-- The Error and Done labels of createAudioStreams, reached by goto Error: the streams are
released (the pointers keep their value) and false is returned. -/
def createAudioStreamsFail (e : Engine) (why : List Diagnostic) : Bool × Engine :=
  (false, { e with log := e.log ++ why ++
      [Diagnostic.createAudioStreamsError, Diagnostic.createAudioStreamsFailed] })

/-- The size computations of createAudioStreams, in unsigned 32-bit arithmetic:
bufferSizePerChannel = blockSize * numBlocks * REAC_RESOLUTION, then times the
channel count. -/
def bufferSize (K : Constants) (blockSize numBlocks numChannels : Nat) : Nat :=
  let bufferSizePerChannel := u32 (u32 (blockSize * numBlocks) * u32 K.REAC_RESOLUTION)
  u32 (bufferSizePerChannel * u32 numChannels)

/-- REACAudioEngine::createAudioStreams.  The second component is the engine afterwards,
the third the value left in the sampleRate argument. -/
def createAudioStreams (K : Constants) (o : StreamOutcomes) (e : Engine) :
    Bool × Engine × SampleRate :=
  let numInChannels := e.protocol.in_channels
  let numOutChannels := e.protocol.out_channels
  let sampleRate : SampleRate := ⟨K.REAC_SAMPLE_RATE, 0⟩
  let e1 := { e with inputStream := o.newInputStream, outputStream := o.newOutputStream }
  if !o.newInputStream || !o.newOutputStream then
    let r := createAudioStreamsFail e1 [Diagnostic.couldNotCreateStreams]
    (r.1, r.2, sampleRate)
  else if !o.initInputStream || !o.initOutputStream then
    let r := createAudioStreamsFail e1 [Diagnostic.couldNotInitStreams]
    (r.1, r.2, sampleRate)
  else if !o.inFormatDict || !o.outFormatDict then
    let r := createAudioStreamsFail e1 [Diagnostic.formatDictIsNull]
    (r.1, r.2, sampleRate)
  else
    match o.inFormat, o.outFormat with
    | some inFormat, some outFormat =>
      let e2 := { e1 with
        inputFormat := inFormat
        outputFormat := outFormat
        mInBufferSize := bufferSize K e1.blockSize e1.numBlocks numInChannels
        mOutBufferSize := bufferSize K e1.blockSize e1.numBlocks numOutChannels }
      match e2.mInBuffer with
      | none =>
        -- IOLog(...); return true; // TODO Debug
        -- (the IOMalloc of the input buffer and its error check follow the return)
        (true, { e2 with log := e2.log ++ [Diagnostic.allocatingInputBuffer e2.mInBufferSize] },
          sampleRate)
      | some _ =>
        -- the input buffer exists already; the output buffer is allocated if missing,
        -- then both streams get their sample buffer and are added to the engine
        match e2.mOutBuffer with
        | some _ => (true, { e2 with streamsAdded := true }, sampleRate)
        | none =>
          let e3 := { e2 with
            log := e2.log ++ [Diagnostic.allocatingOutputBuffer e2.mOutBufferSize] }
          match o.mallocOut with
          | some m => (true, { e3 with mOutBuffer := some m, streamsAdded := true }, sampleRate)
          | none =>
            let r := createAudioStreamsFail e3
              [Diagnostic.errorAllocatingOutputBuffer e3.mOutBufferSize]
            (r.1, r.2, sampleRate)
    | _, _ =>
      let r := createAudioStreamsFail e1 [Diagnostic.errorInCreateFormat]
      (r.1, r.2, sampleRate)

/-- Outcomes of the framework calls made by initControls. -/
structure ControlOutcomes where
  /-- Whether REACWeakReference::withReference returned an object. -/
  weakReference : Bool
  /-- Whether the n-th control creation call, in program order, returned an object. -/
  created : Nat → Bool

/-- The body of the first loop of initControls:
mVolume[channel] = mGain[channel] = 65535; mMuteOut[channel] = mMuteIn[channel] = false. -/
def channelDefault (e : Engine) (channel : Nat) : Engine :=
  { e with
    mGain := Function.update e.mGain channel 65535
    mVolume := Function.update e.mVolume channel 65535
    mMuteIn := Function.update e.mMuteIn channel false
    mMuteOut := Function.update e.mMuteOut channel false }

/-- The first loop of initControls: the defaults of channels 0..16. -/
def setChannelDefaults (e : Engine) : Engine :=
  (List.range 17).foldl channelDefault e

/-- The value of kIOAudioControlChannelIDAll. -/
def kIOAudioControlChannelIDAll : Nat := 0

/-- The controls initControls creates, in program order: a volume and a gain control for
each channel 0..16, then the output mute and the input mute control. -/
def controlsToCreate : List AudioControl :=
  ((List.range 17).flatMap fun channel =>
      [ ⟨ControlKind.outputVolume, channel, channel⟩,
        ⟨ControlKind.inputGain, channel, channel⟩ ])
    ++ [ ⟨ControlKind.outputMute, kIOAudioControlChannelIDAll, 0⟩,
         ⟨ControlKind.inputMute, kIOAudioControlChannelIDAll, 0⟩ ]

/-- The addControl steps over the remaining controls; n is the number of creation calls
made so far.  A creation that fails logs and leaves through Done with result false. -/
def addControls (created : Nat → Bool) : List AudioControl → Nat → Engine → Bool × Engine
  | [], _, e => (true, e)
  | c :: cs, n, e =>
    if created n then
      addControls created cs (n + 1) { e with controls := e.controls ++ [c] }
    else
      (false, { e with log := e.log ++ [Diagnostic.failedToAddControl] })

/-- REACAudioEngine::initControls. -/
def initControls (o : ControlOutcomes) (e : Engine) : Bool × Engine :=
  let e1 := { e with audioControlWeakSelfReference := o.weakReference }
  if !o.weakReference then (false, e1)
  else addControls o.created controlsToCreate 0 (setChannelDefaults e1)

/-- Outcomes of the framework calls made by initHardware and its callees. -/
structure HardwareOutcomes where
  controls : ControlOutcomes
  superInitHardware : Bool
  streams : StreamOutcomes
  /-- Whether getWorkLoop returned an object. -/
  workLoop : Bool

/-- REACAudioEngine::initHardware. -/
def initHardware (K : Constants) (o : HardwareOutcomes) (e : Engine) : Bool × Engine :=
  let e0 := { e with duringHardwareInit := true }
  let done (result : Bool) (x : Engine) : Bool × Engine :=
    (result, { x with duringHardwareInit := false })
  let c := initControls o.controls e0
  if !c.1 then done false c.2
  else if !o.superInitHardware then done false c.2
  else
    let s := createAudioStreams K o.streams c.2
    let initialSampleRate := s.2.2
    if !s.1 || initialSampleRate.whole == 0 then
      done false { s.2.1 with log := s.2.1.log ++ [Diagnostic.initHardwareFailed] }
    else
      let e1 := { s.2.1 with
        blockTimeoutNS := blockPeriodNS s.2.1.blockSize initialSampleRate.whole
        sampleRate := initialSampleRate
        sampleOffset := s.2.1.blockSize
        numSampleFramesPerBuffer := u32 (s.2.1.blockSize * s.2.1.numBlocks) }
      if !o.workLoop then done false e1
      else done true e1

/-! ## Channel controls -/

/-- REACAudioEngine::volumeChanged. -/
def volumeChanged (e : Engine) (volumeControl : Option AudioControl) (oldValue newValue : Int) :
    IOReturn × Engine :=
  let _ := oldValue
  match volumeControl with
  | some c =>
    (IOReturn.kIOReturnSuccess, { e with mVolume := Function.update e.mVolume c.channelID newValue })
  | none => (IOReturn.kIOReturnSuccess, e)

/-- REACAudioEngine::volumeChangeHandler: the static entry point; target is the engine the
control was registered with, or NULL. -/
def volumeChangeHandler (target : Option Engine) (volumeControl : Option AudioControl)
    (oldValue newValue : Int) : IOReturn × Option Engine :=
  match target with
  | some audioEngine =>
    let r := volumeChanged audioEngine volumeControl oldValue newValue
    (r.1, some r.2)
  | none => (IOReturn.kIOReturnBadArgument, none)

/-! ## The timer callback -/

/-- Reinterpretation of an unsigned 64-bit value as a signed 64-bit value. -/
def toSInt64 (n : Nat) : Int :=
  if n < 2 ^ 63 then (n : Int) else (n : Int) - 2 ^ 64

/-- REACAudioEngine::ourTimerFired.  The target is none when the target pointer is NULL or
is not an engine; thisTimeNS is the uptime in nanoseconds read from the clock.  The
result is the engine afterwards and the interval handed to setTimeout (none when the
callback does nothing).  The client count of the output stream is read and nothing
depends on it; the difference of the two times is signed, and the interval is the sum
blockTimeoutNS + diff converted to unsigned 64 bits. -/
def ourTimerFired (target : Option Engine) (thisTimeNS : Nat) : Option Engine × Option Nat :=
  match target with
  | none => (none, none)
  | some audioEngine =>
    let e1 := advanceBlock audioEngine
    let diff : Int := toSInt64 e1.nextTime - toSInt64 thisTimeNS
    let timeout : Nat := (((e1.blockTimeoutNS : Int) + diff) % 2 ^ 64).toNat
    (some { e1 with nextTime := u64 (e1.nextTime + e1.blockTimeoutNS) }, some timeout)

/-! ## Concrete engines -/

/-- An engine as init leaves it, given its protocol, ring geometry, input stream format,
input buffer and cursor. -/
def engineWith (p : Protocol) (numBlocks blockSize currentBlock : Nat) (fmt : StreamFormat)
    (inBuffer : Option Memory) : Engine :=
  { protocol := p
    numBlocks := numBlocks
    blockSize := blockSize
    currentBlock := currentBlock
    mInBuffer := inBuffer
    mOutBuffer := none
    mInBufferSize := 0
    mOutBufferSize := 0
    inputStream := true
    outputStream := true
    inputFormat := fmt
    outputFormat := fmt
    streamsAdded := false
    duringHardwareInit := false
    mLastValidSampleFrame := 0
    blockTimeoutNS := 0
    nextTime := 0
    loopCount := 0
    timeStamps := 0
    sampleRate := ⟨0, 0⟩
    sampleOffset := 0
    numSampleFramesPerBuffer := 0
    mVolume := fun _ => 0
    mGain := fun _ => 0
    mMuteOut := fun _ => false
    mMuteIn := fun _ => false
    audioControlWeakSelfReference := false
    controls := []
    log := [] }

/-- A wire block whose byte at index k is k (mod 256). -/
def rampWire : Memory := fun k => Fin.ofNat k

/-- A buffer filled with the byte 0xAA. -/
def staleBuffer : Memory := fun _ => 170

/-- Two 24-bit channels, buffer allocated, cursor 0, split mode. -/
def stereoEngine : Engine :=
  engineWith ⟨2, 2, Mode.REAC_SPLIT⟩ 1024 12 0 ⟨2, 24⟩ (some staleBuffer)

/-- A ring of two blocks of one frame each, two 24-bit channels, buffer allocated. -/
def smallRing : Engine :=
  engineWith ⟨2, 2, Mode.REAC_SPLIT⟩ 2 1 0 ⟨2, 24⟩ (some staleBuffer)

/-- Five deliveries of one frame each. -/
def fiveBlocks : List (Int × Memory) := List.replicate 5 (1, rampWire)

/-- The values of the REACProtocol.h constants used in the concrete scenarios. -/
def refConstants : Constants := ⟨12, 48000, 3⟩

/-- Outcomes in which every framework call and every allocation succeeds, the streams
having the given formats. -/
def okStreams (inFormat outFormat : StreamFormat) : StreamOutcomes :=
  { newInputStream := true
    newOutputStream := true
    initInputStream := true
    initOutputStream := true
    inFormatDict := true
    outFormatDict := true
    inFormat := some inFormat
    outFormat := some outFormat
    mallocIn := some (fun _ => 0)
    mallocOut := some (fun _ => 0) }

/-- The engine with its cursor set to the given block. -/
def atCursor (e : Engine) (cursor : Nat) : Engine :=
  { e with currentBlock := cursor }

/-- An engine before bring-up whose properties ask for 2^30 blocks of 4 frames; the device
has one input channel. -/
def hugeRing : Engine :=
  engineWith ⟨1, 1, Mode.REAC_SPLIT⟩ (2 ^ 30) 4 0 ⟨0, 0⟩ none

/-- The engine hugeRing after createAudioStreams with one 24-bit channel per stream. -/
def hugeRingUp : Engine :=
  (createAudioStreams refConstants (okStreams ⟨1, 24⟩ ⟨1, 24⟩) hugeRing).2.1

/-- An engine before bring-up with the default ring geometry (1024 blocks of 12 frames) and
a two-channel device. -/
def coldStereo : Engine :=
  engineWith ⟨2, 2, Mode.REAC_SPLIT⟩ 1024 12 0 ⟨0, 0⟩ none

/-- The engine with the protocol reporting the given mode. -/
def withMode (e : Engine) (m : Mode) : Engine :=
  { e with protocol := { e.protocol with mode := m } }

/-- A device and stream format of seventeen 24-bit channels, buffer allocated, cursor 0. -/
def wideEngine : Engine :=
  engineWith ⟨17, 17, Mode.REAC_SPLIT⟩ 1024 12 0 ⟨17, 24⟩ (some staleBuffer)

/-- Two 24-bit channels, buffer allocated, cursor 0, the protocol in master mode. -/
def masterEngine : Engine :=
  engineWith ⟨2, 2, Mode.REAC_MASTER⟩ 1024 12 0 ⟨2, 24⟩ (some staleBuffer)

/-- Outcomes in which every framework call of initHardware succeeds, both streams having
two 24-bit channels. -/
def okHardware : HardwareOutcomes :=
  { controls := ⟨true, fun _ => true⟩
    superInitHardware := true
    streams := okStreams ⟨2, 24⟩ ⟨2, 24⟩
    workLoop := true }

/-- The volume control of channel 16, as initControls creates it. -/
def volumeControl16 : AudioControl := ⟨ControlKind.outputVolume, 16, 16⟩

/-- Channel ch holds the defaults: volume and gain 65535, both mutes false. -/
def HasDefaults (e : Engine) (ch : Nat) : Prop :=
  e.mVolume ch = 65535 ∧ e.mGain ch = 65535 ∧ e.mMuteIn ch = false ∧ e.mMuteOut ch = false

/-- A run of timer fires on one engine, in order: thisTimeNS of each fire is read from the
list.  The result is the engine afterwards and the intervals handed to setTimeout. -/
def timerFires (e : Engine) : List Nat → Engine × List Nat
  | [] => (e, [])
  | thisTimeNS :: later =>
    match ourTimerFired (some e) thisTimeNS with
    | (some e1, some timeout) =>
      let r := timerFires e1 later
      (r.1, timeout :: r.2)
    | _ => (e, [])

/-- The two-channel engine with a block period of 250000 ns, scheduled to fire at
1000000 ns. -/
def timerEngine : Engine :=
  { stereoEngine with blockTimeoutNS := 250000, nextTime := 1000000 }

/-- A ring of 131072 blocks of 65537 frames, two 24-bit channels, buffer allocated, the
cursor at block 65536: the plain product cursor * blockSize * bytesPerSample is
25770196992, above 2^32, while the buffer size the code computes is 786432. -/
def wrapEngine : Engine :=
  engineWith ⟨2, 2, Mode.REAC_SPLIT⟩ 131072 65537 65536 ⟨2, 24⟩ (some staleBuffer)

/-! ## Auxiliary lemmas: stores -/

theorem applyWrites_nil (m : Memory) : applyWrites m [] = m := rfl

theorem applyWrites_cons (m : Memory) (w : Write) (ws : List Write) :
    applyWrites m (w :: ws) = applyWrites (Function.update m w.1 w.2) ws := rfl

theorem applyWrites_append (m : Memory) (ws1 ws2 : List Write) :
    applyWrites m (ws1 ++ ws2) = applyWrites (applyWrites m ws1) ws2 := by
  simp [applyWrites, List.foldl_append]

/-- An index that no store addresses keeps its byte. -/
theorem applyWrites_untouched (ws : List Write) (m : Memory) (a : Nat)
    (h : ∀ w ∈ ws, w.1 ≠ a) : applyWrites m ws a = m a := by
  induction ws generalizing m with
  | nil => rfl
  | cons w ws ih =>
    rw [applyWrites_cons, ih]
    · exact Function.update_noteq (Ne.symm (h w (List.mem_cons_self _ _))) _ _
    · intro w1 hw1
      exact h w1 (List.mem_cons_of_mem _ hw1)

/-- If some store addresses an index and all stores that address it carry the same byte,
that byte is what the index holds afterwards. -/
theorem applyWrites_agree (ws : List Write) (m : Memory) (a : Nat) (v : Byte)
    (hex : ∃ w ∈ ws, w.1 = a) (hall : ∀ w ∈ ws, w.1 = a → w.2 = v) :
    applyWrites m ws a = v := by
  induction ws generalizing m with
  | nil =>
    obtain ⟨w, hw, _⟩ := hex
    cases hw
  | cons w ws ih =>
    rw [applyWrites_cons]
    by_cases hlater : ∃ w1 ∈ ws, w1.1 = a
    · exact ih _ hlater (fun w1 hw1 => hall w1 (List.mem_cons_of_mem _ hw1))
    · have hnone : ∀ w1 ∈ ws, w1.1 ≠ a := fun w1 hw1 hEq => hlater ⟨w1, hw1, hEq⟩
      rw [applyWrites_untouched ws _ a hnone]
      obtain ⟨w0, hw0, hw0a⟩ := hex
      rcases List.mem_cons.mp hw0 with hEq | hIn
      · subst hEq
        rw [← hw0a, Function.update_same]
        exact hall w0 (List.mem_cons_self _ _) hw0a
      · exact absurd hw0a (hnone w0 hIn)

theorem mem_memsetWrites {base len : Nat} {w : Write} :
    w ∈ memsetWrites base len ↔ ∃ k, k < len ∧ w = (base + k, (0 : Byte)) := by
  simp only [memsetWrites, List.mem_map, List.mem_range]
  constructor
  · rintro ⟨k, hk, rfl⟩
    exact ⟨k, hk, rfl⟩
  · rintro ⟨k, hk, rfl⟩
    exact ⟨k, hk, rfl⟩

theorem mem_channelWrites {samples : Memory} {inBuffer bps res i j : Nat} {w : Write} :
    w ∈ channelWrites samples inBuffer bps res i j ↔
      ∃ k, k < 3 ∧ w = (inBuffer + bps * i + res * j + k, remapByte samples bps res i j k) := by
  unfold channelWrites remapByte
  constructor
  · intro h
    split at h
    next hpar =>
      simp only [List.mem_cons, List.mem_singleton, List.not_mem_nil, or_false] at h
      rcases h with h | h | h
      · exact ⟨0, by omega, by simp [h, hpar]⟩
      · exact ⟨1, by omega, by simp [h, hpar]⟩
      · exact ⟨2, by omega, by simp [h, hpar]⟩
    next hpar =>
      simp only [List.mem_cons, List.mem_singleton, List.not_mem_nil, or_false] at h
      rcases h with h | h | h
      · exact ⟨0, by omega, by simp [h, hpar]⟩
      · exact ⟨1, by omega, by simp [h, hpar]⟩
      · exact ⟨2, by omega, by simp [h, hpar]⟩
  · rintro ⟨k, hk, rfl⟩
    have hk3 : k = 0 ∨ k = 1 ∨ k = 2 := by omega
    split
    next hpar => rcases hk3 with rfl | rfl | rfl <;> simp [hpar]
    next hpar => rcases hk3 with rfl | rfl | rfl <;> simp [hpar]

theorem mem_remapWrites {samples : Memory} {inBuffer bps res : Nat} {numSamples : Int}
    {actual : Nat} {w : Write} :
    w ∈ remapWrites samples inBuffer bps res numSamples actual ↔
      ∃ i, i < numSamples.toNat ∧ ∃ j, j < actual ∧ ∃ k, k < 3 ∧
        w = (inBuffer + bps * i + res * j + k, remapByte samples bps res i j k) := by
  simp only [remapWrites, List.mem_flatMap, List.mem_range, mem_channelWrites]

/-- Distinct (frame, channel, byte) triples are stored at distinct indices when every
channel index is below the frame width. -/
theorem remap_index_inj (nc i j k i1 j1 k1 : Nat) (hj : j < nc) (hj1 : j1 < nc)
    (hk : k < 3) (hk1 : k1 < 3)
    (h : 3 * nc * i + 3 * j + k = 3 * nc * i1 + 3 * j1 + k1) :
    i = i1 ∧ j = j1 ∧ k = k1 := by
  have hpos : 0 < 3 * nc := by omega
  have e1 : (3 * nc * i + (3 * j + k)) / (3 * nc) = i := by
    rw [Nat.mul_add_div hpos, Nat.div_eq_of_lt (by omega)]
    rfl
  have e2 : (3 * nc * i1 + (3 * j1 + k1)) / (3 * nc) = i1 := by
    rw [Nat.mul_add_div hpos, Nat.div_eq_of_lt (by omega)]
    rfl
  have hEq : 3 * nc * i + (3 * j + k) = 3 * nc * i1 + (3 * j1 + k1) := by omega
  have hi : i = i1 := by rw [← e1, ← e2, hEq]
  subst hi
  refine ⟨rfl, ?_, ?_⟩ <;> omega

/-- The remap, with 3-byte samples and no more channels than the frame holds, leaves
at the destination of (i, j, k) the wire byte selected for it, whatever was stored
before. -/
theorem applyWrites_remap (m : Memory) (pre : List Write) (samples : Memory)
    (base nc : Nat) (numSamples : Int) (actual i j k : Nat)
    (hact : actual ≤ nc) (hi : (i : Int) < numSamples) (hj : j < actual) (hk : k < 3) :
    applyWrites m (pre ++ remapWrites samples base (3 * nc) 3 numSamples actual)
        (base + 3 * nc * i + 3 * j + k) = remapByte samples (3 * nc) 3 i j k := by
  rw [applyWrites_append]
  apply applyWrites_agree
  · refine ⟨(base + 3 * nc * i + 3 * j + k, remapByte samples (3 * nc) 3 i j k), ?_, rfl⟩
    rw [mem_remapWrites]
    exact ⟨i, by omega, j, hj, k, hk, rfl⟩
  · intro w hw hwa
    rw [mem_remapWrites] at hw
    obtain ⟨i1, _, j1, hj1, k1, hk1, rfl⟩ := hw
    simp only at hwa
    have hinj := remap_index_inj nc i1 j1 k1 i j k (by omega) (by omega) hk1 hk (by omega)
    obtain ⟨rfl, rfl, rfl⟩ := hinj
    rfl

/-! ## Auxiliary lemmas: frame of the mode report and of the block advance -/

theorem reportMode_mInBuffer (e : Engine) : (reportMode e).mInBuffer = e.mInBuffer := by
  unfold reportMode
  split <;> rfl

theorem reportMode_currentBlock (e : Engine) : (reportMode e).currentBlock = e.currentBlock := by
  unfold reportMode
  split <;> rfl

theorem reportMode_numBlocks (e : Engine) : (reportMode e).numBlocks = e.numBlocks := by
  unfold reportMode
  split <;> rfl

theorem reportMode_loopCount (e : Engine) : (reportMode e).loopCount = e.loopCount := by
  unfold reportMode
  split <;> rfl

theorem advanceBlock_mInBuffer (e : Engine) : (advanceBlock e).mInBuffer = e.mInBuffer := by
  unfold advanceBlock takeTimeStamp
  dsimp only
  split <;> rfl

theorem advanceBlock_numBlocks (e : Engine) : (advanceBlock e).numBlocks = e.numBlocks := by
  unfold advanceBlock takeTimeStamp
  dsimp only
  split <;> rfl

/-- The buffer after a delivery with the buffer allocated. -/
theorem gotSamples_mInBuffer (e : Engine) (mem : Memory) (numSamples : Int) (samples : Memory)
    (hbuf : e.mInBuffer = some mem) :
    (gotSamples e numSamples samples).mInBuffer
      = some (applyWrites mem (gotSamplesWrites e numSamples samples)) := by
  unfold gotSamples
  rw [hbuf]
  dsimp only
  rw [advanceBlock_mInBuffer, reportMode_mInBuffer]

/-! ## C1: the wire remap -/

/-- The 32-bit block offset is the plain product whenever that product fits in 32 bits. -/
theorem blockOffset_eq_product (e : Engine)
    (h : e.currentBlock * e.blockSize * bytesPerSample e < 2 ^ 32) :
    blockOffset e = e.currentBlock * e.blockSize * bytesPerSample e := by
  unfold blockOffset
  by_cases hz : e.currentBlock * e.blockSize = 0
  · rw [hz]
    simp [u32]
  · by_cases hp : bytesPerSample e = 0
    · rw [hp]
      simp [u32]
    · have h1 : e.currentBlock * e.blockSize
          ≤ e.currentBlock * e.blockSize * bytesPerSample e :=
        Nat.le_mul_of_pos_right _ (Nat.pos_of_ne_zero hp)
      have h2 : bytesPerSample e ≤ e.currentBlock * e.blockSize * bytesPerSample e :=
        Nat.le_mul_of_pos_left _ (Nat.pos_of_ne_zero hz)
      unfold u32
      rw [Nat.mod_eq_of_lt (show e.currentBlock * e.blockSize < 2 ^ 32 by omega),
        Nat.mod_eq_of_lt (show bytesPerSample e < 2 ^ 32 by omega), Nat.mod_eq_of_lt h]

/-- The 32-bit block offset is the plain product reduced modulo 2^32. -/
theorem blockOffset_eq_mod (e : Engine) :
    blockOffset e = e.currentBlock * e.blockSize * bytesPerSample e % 2 ^ 32 := by
  unfold blockOffset u32
  exact (Nat.mul_mod _ _ _).symm

/-- C1, as stated, fails: with 131072 blocks of 65537 frames and the cursor at block 65536
(two 24-bit channels, every condition of the claim met, the block inside the buffer size
the code computes) the plain product cursor * blockSize * bytesPerSample is 25770196992;
the byte there keeps its old value 170 instead of wire byte 3, and the remapped bytes are
at the 32-bit offset 393216. -/
theorem gotSamples_remap_misses_plain_product :
    wrapEngine.mInBuffer = some staleBuffer ∧ resolution wrapEngine = 3 ∧
    wrapEngine.protocol.in_channels ≤ wrapEngine.inputFormat.fNumChannels ∧
    wrapEngine.currentBlock < wrapEngine.numBlocks ∧
    bufferSize refConstants wrapEngine.blockSize wrapEngine.numBlocks
      wrapEngine.protocol.in_channels = 786432 ∧
    wrapEngine.currentBlock * wrapEngine.blockSize * bytesPerSample wrapEngine
      = 25770196992 ∧
    blockOffset wrapEngine = 393216 ∧
    ∃ dst, (gotSamples wrapEngine 1 rampWire).mInBuffer = some dst ∧
      dst (wrapEngine.currentBlock * wrapEngine.blockSize * bytesPerSample wrapEngine
            + bytesPerSample wrapEngine * 0 + resolution wrapEngine * 0)
        ≠ rampWire (bytesPerSample wrapEngine * 0 + resolution wrapEngine * (0 / 2) + 3) ∧
      dst 25770196992 = 170 ∧ rampWire 3 = 3 ∧
      dst 393216 = 3 ∧ dst 393217 = 0 ∧ dst 393218 = 1 ∧
      dst 393219 = 4 ∧ dst 393220 = 5 ∧ dst 393221 = 2 := by
  refine ⟨rfl, rfl, by decide, by decide, by decide, by decide, by decide, _, rfl,
    by decide, by decide, by decide, by decide, by decide, by decide, by decide, by decide,
    by decide⟩

/-- C1, amended: for every gotSamples call with the input buffer allocated, 3-byte
resolution and no more actual channels than the stream format has (bytesPerSample being
resolution times numChannels), afterwards, for every frame i below numSamples and channel j
below the actual channel count, the three destination bytes at
blockOffset + bytesPerSample*i + resolution*j hold wire bytes s+3, s+0, s+1 when j is even
and s+4, s+5, s+2 when j is odd, where s = bytesPerSample*i + resolution*(j/2), and where
blockOffset = (currentBlock*blockSize*bytesPerSample) mod 2^32 is the offset as gotSamples
computes it, in unsigned 32-bit arithmetic; it is the plain product whenever that fits in
32 bits. -/
theorem gotSamples_remap (e : Engine) (mem : Memory) (numSamples : Int) (samples : Memory)
    (hbuf : e.mInBuffer = some mem)
    (hres : resolution e = 3)
    (hact : e.protocol.in_channels ≤ e.inputFormat.fNumChannels)
    (i j : Nat) (hi : (i : Int) < numSamples) (hj : j < e.protocol.in_channels) :
    bytesPerSample e = resolution e * e.inputFormat.fNumChannels ∧
    blockOffset e = e.currentBlock * e.blockSize * bytesPerSample e % 2 ^ 32 ∧
    (e.currentBlock * e.blockSize * bytesPerSample e < 2 ^ 32 →
      blockOffset e = e.currentBlock * e.blockSize * bytesPerSample e) ∧
    ∃ dst, (gotSamples e numSamples samples).mInBuffer = some dst ∧
      (j % 2 = 0 →
        dst (blockOffset e + bytesPerSample e * i + resolution e * j)
            = samples (bytesPerSample e * i + resolution e * (j / 2) + 3) ∧
        dst (blockOffset e + bytesPerSample e * i + resolution e * j + 1)
            = samples (bytesPerSample e * i + resolution e * (j / 2) + 0) ∧
        dst (blockOffset e + bytesPerSample e * i + resolution e * j + 2)
            = samples (bytesPerSample e * i + resolution e * (j / 2) + 1)) ∧
      (j % 2 = 1 →
        dst (blockOffset e + bytesPerSample e * i + resolution e * j)
            = samples (bytesPerSample e * i + resolution e * (j / 2) + 4) ∧
        dst (blockOffset e + bytesPerSample e * i + resolution e * j + 1)
            = samples (bytesPerSample e * i + resolution e * (j / 2) + 5) ∧
        dst (blockOffset e + bytesPerSample e * i + resolution e * j + 2)
            = samples (bytesPerSample e * i + resolution e * (j / 2) + 2)) := by
  have hbps : bytesPerSample e = 3 * e.inputFormat.fNumChannels := by
    unfold bytesPerSample
    unfold resolution at hres
    rw [hres]
  refine ⟨by rw [hbps, hres], blockOffset_eq_mod e, blockOffset_eq_product e, _,
    gotSamples_mInBuffer e mem numSamples samples hbuf, ?_, ?_⟩
  · intro hpar
    have h0 := applyWrites_remap mem
      (memsetWrites (blockOffset e) (sizeT (numSamples * (bytesPerSample e : Int)))) samples
      (blockOffset e) e.inputFormat.fNumChannels numSamples e.protocol.in_channels i j 0
      hact hi hj (by omega)
    have h1 := applyWrites_remap mem
      (memsetWrites (blockOffset e) (sizeT (numSamples * (bytesPerSample e : Int)))) samples
      (blockOffset e) e.inputFormat.fNumChannels numSamples e.protocol.in_channels i j 1
      hact hi hj (by omega)
    have h2 := applyWrites_remap mem
      (memsetWrites (blockOffset e) (sizeT (numSamples * (bytesPerSample e : Int)))) samples
      (blockOffset e) e.inputFormat.fNumChannels numSamples e.protocol.in_channels i j 2
      hact hi hj (by omega)
    simp only [gotSamplesWrites, hbps, hres]
    simp only [remapByte, hpar, if_true] at h0 h1 h2
    simp only [hbps] at h0 h1 h2
    exact ⟨h0, h1, h2⟩
  · intro hpar
    have hne : ¬ (j % 2 = 0) := by omega
    have h0 := applyWrites_remap mem
      (memsetWrites (blockOffset e) (sizeT (numSamples * (bytesPerSample e : Int)))) samples
      (blockOffset e) e.inputFormat.fNumChannels numSamples e.protocol.in_channels i j 0
      hact hi hj (by omega)
    have h1 := applyWrites_remap mem
      (memsetWrites (blockOffset e) (sizeT (numSamples * (bytesPerSample e : Int)))) samples
      (blockOffset e) e.inputFormat.fNumChannels numSamples e.protocol.in_channels i j 1
      hact hi hj (by omega)
    have h2 := applyWrites_remap mem
      (memsetWrites (blockOffset e) (sizeT (numSamples * (bytesPerSample e : Int)))) samples
      (blockOffset e) e.inputFormat.fNumChannels numSamples e.protocol.in_channels i j 2
      hact hi hj (by omega)
    simp only [gotSamplesWrites, hbps, hres]
    simp only [remapByte, hne, if_false] at h0 h1 h2
    simp only [hbps] at h0 h1 h2
    exact ⟨h0, h1, h2⟩

/-- Witness for the amended C1, the scenario numSamples = 1, two actual channels,
bytesPerSample = 6, resolution = 3, cursor 0: the first six destination bytes are wire
bytes 3, 0, 1, 4, 5, 2. -/
theorem gotSamples_remap_witness :
    stereoEngine.mInBuffer = some staleBuffer ∧ resolution stereoEngine = 3 ∧
    bytesPerSample stereoEngine = 6 ∧ blockOffset stereoEngine = 0 ∧
    ∃ dst, (gotSamples stereoEngine 1 rampWire).mInBuffer = some dst ∧
      dst 0 = rampWire 3 ∧ dst 1 = rampWire 0 ∧ dst 2 = rampWire 1 ∧
      dst 3 = rampWire 4 ∧ dst 4 = rampWire 5 ∧ dst 5 = rampWire 2 := by
  have hA := gotSamples_remap stereoEngine staleBuffer 1 rampWire rfl rfl (by decide) 0 0
    (by decide) (by decide)
  have hB := gotSamples_remap stereoEngine staleBuffer 1 rampWire rfl rfl (by decide) 0 1
    (by decide) (by decide)
  obtain ⟨_, _, _, dA, hdA, hA0, _⟩ := hA
  obtain ⟨_, _, _, dB, hdB, _, hB1⟩ := hB
  have hd : dA = dB := Option.some.inj (hdA.symm.trans hdB)
  subst hd
  have h0 := hA0 rfl
  have h1 := hB1 rfl
  have hres : resolution stereoEngine = 3 := rfl
  have hbps : bytesPerSample stereoEngine = 6 := rfl
  have hoff : blockOffset stereoEngine = 0 := by decide
  rw [hres, hbps, hoff] at h0 h1
  exact ⟨rfl, hres, hbps, hoff, dA, hdA, h0.1, h0.2.1, h0.2.2, h1.1, h1.2.1, h1.2.2⟩

/-! ## C2: the block cursor -/

/-- One block advance from a cursor inside the ring. -/
theorem advanceBlock_step (x : Engine) (h32 : x.numBlocks < 2 ^ 32)
    (hcb : x.currentBlock < x.numBlocks) :
    (x.currentBlock + 1 = x.numBlocks →
      (advanceBlock x).currentBlock = 0 ∧ (advanceBlock x).loopCount = x.loopCount + 1) ∧
    (x.currentBlock + 1 < x.numBlocks →
      (advanceBlock x).currentBlock = x.currentBlock + 1 ∧
      (advanceBlock x).loopCount = x.loopCount) := by
  have hmod : (x.currentBlock + 1) % 2 ^ 32 = x.currentBlock + 1 :=
    Nat.mod_eq_of_lt (by omega)
  unfold advanceBlock takeTimeStamp u32
  dsimp only
  rw [hmod]
  constructor
  · intro hEq
    rw [if_pos (by omega)]
    exact ⟨rfl, rfl⟩
  · intro hLt
    rw [if_neg (by omega)]
    exact ⟨rfl, rfl⟩

/-- One delivery with the buffer allocated: the buffer stays allocated, the ring size is
kept, and the cursor steps or wraps. -/
theorem gotSamples_step (s : Engine) (numSamples : Int) (samples : Memory)
    (hbuf : s.mInBuffer.isSome = true) (h32 : s.numBlocks < 2 ^ 32)
    (hcb : s.currentBlock < s.numBlocks) :
    (gotSamples s numSamples samples).mInBuffer.isSome = true ∧
    (gotSamples s numSamples samples).numBlocks = s.numBlocks ∧
    (s.currentBlock + 1 = s.numBlocks →
      (gotSamples s numSamples samples).currentBlock = 0 ∧
      (gotSamples s numSamples samples).loopCount = s.loopCount + 1) ∧
    (s.currentBlock + 1 < s.numBlocks →
      (gotSamples s numSamples samples).currentBlock = s.currentBlock + 1 ∧
      (gotSamples s numSamples samples).loopCount = s.loopCount) := by
  cases hmem : s.mInBuffer with
  | none => rw [hmem] at hbuf; cases hbuf
  | some mem =>
    have hb := gotSamples_mInBuffer s mem numSamples samples hmem
    refine ⟨by rw [hb]; rfl, ?_, ?_⟩
    · unfold gotSamples
      rw [hmem]
      dsimp only
      rw [advanceBlock_numBlocks, reportMode_numBlocks]
    · unfold gotSamples
      rw [hmem]
      dsimp only
      have hstep := advanceBlock_step
        (reportMode { s with
          mInBuffer := some (applyWrites mem (gotSamplesWrites s numSamples samples)) })
        (by rw [reportMode_numBlocks]; exact h32)
        (by rw [reportMode_numBlocks, reportMode_currentBlock]; exact hcb)
      rw [reportMode_numBlocks, reportMode_currentBlock, reportMode_loopCount] at hstep
      exact hstep

/-- The cursor and the loop count after a run of deliveries, from any cursor inside the
ring. -/
theorem deliverAll_counts (blocks : List (Int × Memory)) (s : Engine)
    (hbuf : s.mInBuffer.isSome = true) (h32 : s.numBlocks < 2 ^ 32)
    (hcb : s.currentBlock < s.numBlocks) :
    (deliverAll s blocks).currentBlock = (s.currentBlock + blocks.length) % s.numBlocks ∧
    (deliverAll s blocks).loopCount
      = s.loopCount + (s.currentBlock + blocks.length) / s.numBlocks := by
  induction blocks generalizing s with
  | nil =>
    simp only [deliverAll, List.foldl_nil, List.length_nil, Nat.add_zero]
    rw [Nat.mod_eq_of_lt hcb, Nat.div_eq_of_lt hcb]
    exact ⟨rfl, rfl⟩
  | cons b bs ih =>
    obtain ⟨hb1, hn1, hwrap, hnext⟩ := gotSamples_step s b.1 b.2 hbuf h32 hcb
    have hfold : deliverAll s (b :: bs) = deliverAll (gotSamples s b.1 b.2) bs := rfl
    rw [hfold, List.length_cons]
    by_cases hEq : s.currentBlock + 1 = s.numBlocks
    · obtain ⟨hc, hl⟩ := hwrap hEq
      have ih1 := ih (gotSamples s b.1 b.2) hb1 (by rw [hn1]; exact h32)
        (by rw [hn1, hc]; omega)
      rw [hn1, hc, hl] at ih1
      have harr : s.currentBlock + (bs.length + 1) = s.numBlocks + bs.length := by omega
      rw [harr, Nat.add_mod_left, Nat.add_div_left _ (by omega)]
      rw [Nat.zero_add] at ih1
      refine ⟨ih1.1, ?_⟩
      rw [ih1.2]
      omega
    · obtain ⟨hc, hl⟩ := hnext (by omega)
      have ih1 := ih (gotSamples s b.1 b.2) hb1 (by rw [hn1]; exact h32)
        (by rw [hn1, hc]; omega)
      rw [hn1, hc, hl] at ih1
      have harr : s.currentBlock + (bs.length + 1) = s.currentBlock + 1 + bs.length := by omega
      rw [harr]
      exact ih1

/-- C2: the block cursor is a mod-numBlocks counter.  For every ring size numBlocks ≥ 1
(a 32-bit value) and every run of k deliveries with the buffer allocated after start, the
cursor equals k mod numBlocks, hence is below numBlocks, and the loop count has grown by
k / numBlocks; start itself leaves the loop count alone; after exactly numBlocks deliveries
the cursor is 0 again and the loop count has grown by one. -/
theorem cursor_mod_counter (e : Engine) (blocks : List (Int × Memory))
    (hnb : 1 ≤ e.numBlocks) (h32 : e.numBlocks < 2 ^ 32)
    (hbuf : e.mInBuffer.isSome = true) :
    (performAudioEngineStart e).2.currentBlock = 0 ∧
    (performAudioEngineStart e).2.loopCount = e.loopCount ∧
    (deliverAll (performAudioEngineStart e).2 blocks).currentBlock
      = blocks.length % e.numBlocks ∧
    (deliverAll (performAudioEngineStart e).2 blocks).currentBlock < e.numBlocks ∧
    (deliverAll (performAudioEngineStart e).2 blocks).loopCount
      = e.loopCount + blocks.length / e.numBlocks ∧
    (blocks.length = e.numBlocks →
      (deliverAll (performAudioEngineStart e).2 blocks).currentBlock = 0 ∧
      (deliverAll (performAudioEngineStart e).2 blocks).loopCount = e.loopCount + 1) := by
  have hstart : (performAudioEngineStart e).2.currentBlock = 0 := rfl
  have hloop : (performAudioEngineStart e).2.loopCount = e.loopCount := rfl
  have hnum : (performAudioEngineStart e).2.numBlocks = e.numBlocks := rfl
  have hmem : (performAudioEngineStart e).2.mInBuffer = e.mInBuffer := rfl
  have hrun := deliverAll_counts blocks (performAudioEngineStart e).2
    (by rw [hmem]; exact hbuf) (by rw [hnum]; exact h32) (by rw [hnum, hstart]; omega)
  rw [hstart, hloop, hnum, Nat.zero_add] at hrun
  refine ⟨hstart, hloop, hrun.1, ?_, hrun.2, ?_⟩
  · rw [hrun.1]
    exact Nat.mod_lt _ (by omega)
  · intro hlen
    rw [hrun.1, hrun.2, hlen, Nat.mod_self, Nat.div_self (by omega)]
    exact ⟨rfl, rfl⟩

/-- Witness for C2: a ring of two blocks after start and five deliveries has its cursor at
1 and has wrapped twice. -/
theorem cursor_mod_counter_witness :
    1 ≤ smallRing.numBlocks ∧ smallRing.numBlocks < 2 ^ 32 ∧
    smallRing.mInBuffer.isSome = true ∧
    (deliverAll (performAudioEngineStart smallRing).2 fiveBlocks).currentBlock = 1 ∧
    (deliverAll (performAudioEngineStart smallRing).2 fiveBlocks).loopCount = 2 := by
  have h := cursor_mod_counter smallRing fiveBlocks (by decide) (by decide) rfl
  exact ⟨by decide, by decide, rfl, h.2.2.1, h.2.2.2.2.1⟩

/-! ## C3: the block region and the buffer size -/

/-- A value below 2^32 is its own 32-bit reduction. -/
theorem u32_of_lt {n : Nat} (h : n < 2 ^ 32) : u32 n = n := Nat.mod_eq_of_lt h

/-- The arithmetic core of C3: with B frames per block, N blocks, RES bytes per sample and
ch channels, if the whole buffer size fits in 32 bits then block c < N ends inside it. -/
theorem block_within_buffer (B N RES ch c : Nat) (hc : c < N)
    (hP : B * N * RES * ch < 2 ^ 32) :
    u32 (u32 (c * B) * u32 (RES * ch)) + B * (RES * ch)
      ≤ u32 (u32 (u32 (B * N) * u32 RES) * u32 ch) := by
  by_cases hz : B * (RES * ch) = 0
  · rcases Nat.mul_eq_zero.mp hz with hB | hR
    · subst hB
      simp [u32]
    · rw [hR]
      simp [u32]
  · have hBpos : 1 ≤ B := Nat.pos_of_ne_zero (fun h => hz (by rw [h, Nat.zero_mul]))
    have hRpos : 1 ≤ RES * ch := Nat.pos_of_ne_zero (fun h => hz (by rw [h, Nat.mul_zero]))
    have hRES : 1 ≤ RES := Nat.pos_of_ne_zero (fun h => by rw [h, Nat.zero_mul] at hRpos; omega)
    have hch : 1 ≤ ch := Nat.pos_of_ne_zero (fun h => by rw [h, Nat.mul_zero] at hRpos; omega)
    have hN : 1 ≤ N := by omega
    have hBN : 1 ≤ B * N := Nat.mul_pos hBpos hN
    have h1 : B * N ≤ B * N * RES := Nat.le_mul_of_pos_right _ hRES
    have h2 : B * N * RES ≤ B * N * RES * ch := Nat.le_mul_of_pos_right _ hch
    have h3 : RES ≤ B * N * RES := Nat.le_mul_of_pos_left _ hBN
    have h4 : ch ≤ B * N * RES * ch := Nat.le_mul_of_pos_left _ (by omega)
    have h5 : c * B ≤ B * N := by
      rw [Nat.mul_comm c B]
      exact Nat.mul_le_mul_left _ (by omega)
    have h6 : RES * ch ≤ B * N * (RES * ch) := Nat.le_mul_of_pos_left _ hBN
    have hassoc : B * N * RES * ch = B * N * (RES * ch) := Nat.mul_assoc _ _ _
    have h7 : c * B * (RES * ch) + B * (RES * ch) ≤ B * N * (RES * ch) := by
      have : c * B * (RES * ch) + B * (RES * ch) = (c + 1) * B * (RES * ch) := by ring
      rw [this]
      apply Nat.mul_le_mul_right
      rw [Nat.mul_comm B N]
      exact Nat.mul_le_mul_right _ (by omega)
    rw [u32_of_lt (show B * N < 2 ^ 32 by omega), u32_of_lt (show RES < 2 ^ 32 by omega),
      u32_of_lt (show B * N * RES < 2 ^ 32 by omega), u32_of_lt (show ch < 2 ^ 32 by omega),
      u32_of_lt hP, u32_of_lt (show c * B < 2 ^ 32 by omega),
      u32_of_lt (show RES * ch < 2 ^ 32 by omega),
      u32_of_lt (show c * B * (RES * ch) < 2 ^ 32 by omega)]
    omega

/-- What createAudioStreams never changes, and the sample rate it reports. -/
theorem createAudioStreams_frame (K : Constants) (o : StreamOutcomes) (e : Engine) :
    (createAudioStreams K o e).2.1.blockSize = e.blockSize ∧
    (createAudioStreams K o e).2.1.numBlocks = e.numBlocks ∧
    (createAudioStreams K o e).2.1.protocol = e.protocol ∧
    (createAudioStreams K o e).2.1.mInBuffer = e.mInBuffer ∧
    (createAudioStreams K o e).2.2 = ⟨K.REAC_SAMPLE_RATE, 0⟩ := by
  unfold createAudioStreams createAudioStreamsFail
  dsimp only
  split
  · exact ⟨rfl, rfl, rfl, rfl, rfl⟩
  · split
    · exact ⟨rfl, rfl, rfl, rfl, rfl⟩
    · split
      · exact ⟨rfl, rfl, rfl, rfl, rfl⟩
      · split
        · split
          · exact ⟨rfl, rfl, rfl, rfl, rfl⟩
          · split
            · exact ⟨rfl, rfl, rfl, rfl, rfl⟩
            · split
              · exact ⟨rfl, rfl, rfl, rfl, rfl⟩
              · exact ⟨rfl, rfl, rfl, rfl, rfl⟩
        · exact ⟨rfl, rfl, rfl, rfl, rfl⟩

/-- On success the input stream has the parsed format and the input buffer size is the
32-bit product computed from the ring geometry and the device channel count. -/
theorem createAudioStreams_success (K : Constants) (o : StreamOutcomes) (e : Engine)
    (h : (createAudioStreams K o e).1 = true) :
    o.inFormat = some (createAudioStreams K o e).2.1.inputFormat ∧
    (createAudioStreams K o e).2.1.mInBufferSize
      = bufferSize K e.blockSize e.numBlocks e.protocol.in_channels := by
  unfold createAudioStreams createAudioStreamsFail at h ⊢
  dsimp only at h ⊢
  split at h
  · cases h
  · split at h
    · cases h
    · split at h
      · cases h
      · rename_i h1 h2 h3
        rw [if_neg h1, if_neg h2, if_neg h3]
        split at h
        · rename_i inF outF hin hout
          simp only [hin, hout]
          split
          · exact ⟨rfl, rfl⟩
          · split
            · exact ⟨rfl, rfl⟩
            · split
              · exact ⟨rfl, rfl⟩
              · exact ⟨rfl, rfl⟩
        · cases h

/-- C3, as stated, fails: with 2^30 blocks of 4 frames of one 3-byte channel the buffer
size computed at bring-up wraps to 0, while the block at cursor 0 spans 12 bytes. -/
theorem block_region_exceeds_buffer :
    (createAudioStreams refConstants (okStreams ⟨1, 24⟩ ⟨1, 24⟩) hugeRing).1 = true ∧
    0 < hugeRingUp.numBlocks ∧
    resolution hugeRingUp = refConstants.REAC_RESOLUTION ∧
    hugeRingUp.inputFormat.fNumChannels = hugeRingUp.protocol.in_channels ∧
    hugeRingUp.mInBufferSize = 0 ∧
    blockOffset (atCursor hugeRingUp 0) + hugeRingUp.blockSize * bytesPerSample hugeRingUp = 12 ∧
    ¬ (blockOffset (atCursor hugeRingUp 0) + hugeRingUp.blockSize * bytesPerSample hugeRingUp
        ≤ hugeRingUp.mInBufferSize) := by
  refine ⟨rfl, by decide, rfl, rfl, by decide, by decide, by decide⟩

/-- C3, amended: when bring-up succeeds, the input stream format is the device format
(REAC_RESOLUTION bytes per sample, in_channels channels) and the product
blockSize * numBlocks * REAC_RESOLUTION * in_channels fits in 32 bits, then for every
cursor below numBlocks the block region ends inside the input buffer size computed at
bring-up. -/
theorem block_region_within_buffer (K : Constants) (o : StreamOutcomes) (e : Engine)
    (cursor : Nat)
    (hok : (createAudioStreams K o e).1 = true)
    (hcur : cursor < e.numBlocks)
    (hres : resolution (createAudioStreams K o e).2.1 = K.REAC_RESOLUTION)
    (hch : (createAudioStreams K o e).2.1.inputFormat.fNumChannels = e.protocol.in_channels)
    (hfit : e.blockSize * e.numBlocks * K.REAC_RESOLUTION * e.protocol.in_channels < 2 ^ 32) :
    blockOffset (atCursor (createAudioStreams K o e).2.1 cursor)
        + (createAudioStreams K o e).2.1.blockSize * bytesPerSample (createAudioStreams K o e).2.1
      ≤ (createAudioStreams K o e).2.1.mInBufferSize := by
  obtain ⟨hbs, _, _, _, _⟩ := createAudioStreams_frame K o e
  obtain ⟨_, hsize⟩ := createAudioStreams_success K o e hok
  have hbps : bytesPerSample (createAudioStreams K o e).2.1
      = K.REAC_RESOLUTION * e.protocol.in_channels := by
    unfold bytesPerSample
    unfold resolution at hres
    rw [hres, hch]
  have hoff : blockOffset (atCursor (createAudioStreams K o e).2.1 cursor)
      = u32 (u32 (cursor * e.blockSize) * u32 (K.REAC_RESOLUTION * e.protocol.in_channels)) := by
    have hb : bytesPerSample (atCursor (createAudioStreams K o e).2.1 cursor)
        = bytesPerSample (createAudioStreams K o e).2.1 := rfl
    unfold blockOffset
    rw [hb, hbps]
    show u32 (u32 (cursor * (createAudioStreams K o e).2.1.blockSize) * _) = _
    rw [hbs]
  rw [hoff, hbps, hsize, hbs]
  exact block_within_buffer e.blockSize e.numBlocks K.REAC_RESOLUTION e.protocol.in_channels
    cursor hcur hfit

/-- Witness for the amended C3: the default ring (1024 blocks of 12 frames) of a two-channel
24-bit device, at the last cursor. -/
theorem block_region_within_buffer_witness :
    (createAudioStreams refConstants (okStreams ⟨2, 24⟩ ⟨2, 24⟩) coldStereo).1 = true ∧
    1023 < coldStereo.numBlocks ∧
    blockOffset (atCursor
        (createAudioStreams refConstants (okStreams ⟨2, 24⟩ ⟨2, 24⟩) coldStereo).2.1 1023)
      + (createAudioStreams refConstants (okStreams ⟨2, 24⟩ ⟨2, 24⟩) coldStereo).2.1.blockSize
        * bytesPerSample
            (createAudioStreams refConstants (okStreams ⟨2, 24⟩ ⟨2, 24⟩) coldStereo).2.1
      ≤ (createAudioStreams refConstants (okStreams ⟨2, 24⟩ ⟨2, 24⟩) coldStereo).2.1.mInBufferSize :=
  ⟨rfl, by decide,
    block_region_within_buffer refConstants (okStreams ⟨2, 24⟩ ⟨2, 24⟩) coldStereo 1023
      rfl (by decide) rfl rfl (by decide)⟩

/-! ## C4: the stores of one delivery and the block region -/

/-- The memset length never exceeds the byte count it is computed from. -/
theorem sizeT_le (m b : Nat) : sizeT ((m : Int) * (b : Int)) ≤ m * b := by
  unfold sizeT
  have h : ((m : Int) * (b : Int)) % 2 ^ 64 = (((m * b) % 2 ^ 64 : Nat) : Int) := by
    push_cast
    rfl
  rw [h, Int.toNat_ofNat]
  exact Nat.mod_le _ _

/-- C4, as stated, fails: with blocks of one frame (6 bytes) a delivery of two frames stores
at index 6, the first byte after the block at cursor 0, and the byte there changes. -/
theorem gotSamples_writes_past_block :
    smallRing.mInBuffer = some staleBuffer ∧
    (6, rampWire 9) ∈ gotSamplesWrites smallRing 2 rampWire ∧
    blockOffset smallRing + smallRing.blockSize * bytesPerSample smallRing = 6 ∧
    ∃ dst, (gotSamples smallRing 2 rampWire).mInBuffer = some dst ∧
      staleBuffer 6 = 170 ∧ dst 6 = 9 := by
  refine ⟨rfl, by decide, by decide, _, rfl, by decide, by decide⟩

/-- C4, amended: for every delivery of at most blockSize frames (and not a negative
count), with samples at least 3 bytes wide and no more actual channels than the stream
format has, every store of the zero-fill and of the remap lies inside the region of the
current block, from blockOffset up to blockOffset + blockSize * bytesPerSample. -/
theorem gotSamples_writes_in_block (e : Engine) (numSamples : Int) (samples : Memory)
    (h0 : 0 ≤ numSamples) (hn : numSamples ≤ (e.blockSize : Int))
    (hres : 3 ≤ resolution e)
    (hact : e.protocol.in_channels ≤ e.inputFormat.fNumChannels) :
    ∀ w ∈ gotSamplesWrites e numSamples samples,
      blockOffset e ≤ w.1 ∧ w.1 < blockOffset e + e.blockSize * bytesPerSample e := by
  obtain ⟨m, rfl⟩ := Int.eq_ofNat_of_zero_le h0
  have hm : m ≤ e.blockSize := by exact_mod_cast hn
  intro w hw
  unfold gotSamplesWrites at hw
  dsimp only at hw
  rcases List.mem_append.mp hw with hw | hw
  · obtain ⟨k, hk, rfl⟩ := mem_memsetWrites.mp hw
    have h1 := sizeT_le m (bytesPerSample e)
    have h2 : m * bytesPerSample e ≤ e.blockSize * bytesPerSample e :=
      Nat.mul_le_mul_right _ hm
    dsimp only
    omega
  · obtain ⟨i, hi, j, hj, k, hk, rfl⟩ := mem_remapWrites.mp hw
    have hi1 : i + 1 ≤ e.blockSize := by
      simp only [Int.toNat_ofNat] at hi
      omega
    have hbps : bytesPerSample e = resolution e * e.inputFormat.fNumChannels := rfl
    have h1 : resolution e * j + resolution e ≤ bytesPerSample e := by
      rw [hbps]
      calc resolution e * j + resolution e = resolution e * (j + 1) := by ring
        _ ≤ resolution e * e.inputFormat.fNumChannels := Nat.mul_le_mul_left _ (by omega)
    have h2 : bytesPerSample e * i + bytesPerSample e ≤ e.blockSize * bytesPerSample e := by
      calc bytesPerSample e * i + bytesPerSample e = (i + 1) * bytesPerSample e := by ring
        _ ≤ e.blockSize * bytesPerSample e := Nat.mul_le_mul_right _ hi1
    dsimp only
    omega

/-- Witness for the amended C4: a full block of 12 frames on the two-channel engine. -/
theorem gotSamples_writes_in_block_witness :
    (0 : Int) ≤ 12 ∧ (12 : Int) ≤ (stereoEngine.blockSize : Int) ∧ 3 ≤ resolution stereoEngine ∧
    stereoEngine.protocol.in_channels ≤ stereoEngine.inputFormat.fNumChannels ∧
    ∀ w ∈ gotSamplesWrites stereoEngine 12 rampWire,
      blockOffset stereoEngine ≤ w.1 ∧
      w.1 < blockOffset stereoEngine + stereoEngine.blockSize * bytesPerSample stereoEngine :=
  ⟨by decide, by decide, by decide, by decide,
    gotSamples_writes_in_block stereoEngine 12 rampWire (by decide) (by decide) (by decide)
      (by decide)⟩

/-! ## C5: no clamp of the channel count -/

/-- C5, evaluated at the failing input: with seventeen device channels the remap stores
the three bytes of channel index 16 (destination indices 48, 49, 50 of frame 0). -/
theorem gotSamples_writes_channel16 :
    wideEngine.mInBuffer = some staleBuffer ∧
    16 < wideEngine.protocol.in_channels ∧
    blockOffset wideEngine + bytesPerSample wideEngine * 0 + resolution wideEngine * 16 = 48 ∧
    (48, rampWire 27) ∈ gotSamplesWrites wideEngine 1 rampWire ∧
    ∃ dst, (gotSamples wideEngine 1 rampWire).mInBuffer = some dst ∧
      staleBuffer 48 = 170 ∧ dst 48 = 27 ∧ dst 49 = 24 ∧ dst 50 = 25 := by
  refine ⟨rfl, by decide, by decide, by decide, _, rfl, by decide, by decide, by decide, by decide⟩

/-! ## C6: the NULL buffer guard -/

/-- C6: when the input buffer is not allocated, gotSamples returns the engine unchanged,
for every numSamples and every payload: no byte is stored, the cursor, the loop count and
the timestamp count keep their values and nothing is logged. -/
theorem gotSamples_null_buffer (e : Engine) (numSamples : Int) (samples : Memory)
    (hbuf : e.mInBuffer = none) : gotSamples e numSamples samples = e := by
  unfold gotSamples
  rw [hbuf]

/-- Witness for C6: a delivery to an engine before bring-up. -/
theorem gotSamples_null_buffer_witness :
    coldStereo.mInBuffer = none ∧ gotSamples coldStereo 12 rampWire = coldStereo :=
  ⟨rfl, gotSamples_null_buffer coldStereo 12 rampWire rfl⟩

/-! ## C7: the mode switch -/

/-- C7, as stated, fails: in master mode a delivery moves the cursor from 0 to 1 and
overwrites byte 0 of the buffer. -/
theorem gotSamples_master_changes_state :
    masterEngine.protocol.mode = Mode.REAC_MASTER ∧
    masterEngine.currentBlock = 0 ∧
    (gotSamples masterEngine 1 rampWire).currentBlock = 1 ∧
    ∃ dst, (gotSamples masterEngine 1 rampWire).mInBuffer = some dst ∧
      staleBuffer 0 = 170 ∧ dst 0 = 3 := by
  refine ⟨rfl, rfl, by decide, _, rfl, by decide, by decide⟩

/-- C7, amended: in master or slave mode a delivery with the buffer allocated does what it
does in split mode, and also logs the unsupported mode: the same bytes are stored and the
cursor and loop count advance as in every delivery. -/
theorem gotSamples_mode_only_logs (e : Engine) (mem : Memory) (numSamples : Int)
    (samples : Memory) (hbuf : e.mInBuffer = some mem)
    (hmode : e.protocol.mode = Mode.REAC_MASTER ∨ e.protocol.mode = Mode.REAC_SLAVE) :
    gotSamples e numSamples samples
      = { gotSamples (withMode e Mode.REAC_SPLIT) numSamples samples with
          protocol := e.protocol
          log := e.log ++ [Diagnostic.unsupportedMode] } ∧
    (gotSamples e numSamples samples).mInBuffer
      = some (applyWrites mem (gotSamplesWrites e numSamples samples)) ∧
    (gotSamples e numSamples samples).currentBlock = (advanceBlock e).currentBlock ∧
    (gotSamples e numSamples samples).loopCount = (advanceBlock e).loopCount := by
  refine ⟨?_, gotSamples_mInBuffer e mem numSamples samples hbuf, ?_, ?_⟩
  all_goals
    simp only [gotSamples, withMode, hbuf, reportMode]
    rcases hmode with h | h <;> simp only [h] <;> unfold advanceBlock takeTimeStamp <;>
      dsimp only <;> split <;> rfl

/-- Witness for the amended C7: the two-channel engine in master mode. -/
theorem gotSamples_mode_only_logs_witness :
    masterEngine.mInBuffer = some staleBuffer ∧
    masterEngine.protocol.mode = Mode.REAC_MASTER ∧
    (gotSamples masterEngine 1 rampWire).log = [Diagnostic.unsupportedMode] ∧
    (gotSamples masterEngine 1 rampWire).currentBlock
      = (gotSamples (withMode masterEngine Mode.REAC_SPLIT) 1 rampWire).currentBlock := by
  have h := (gotSamples_mode_only_logs masterEngine staleBuffer 1 rampWire rfl (Or.inl rfl)).1
  refine ⟨rfl, rfl, ?_, ?_⟩
  · rw [h]
    rfl
  · rw [h]

/-! ## C8: bring-up and the buffer handles -/

/-- When the streams and formats are obtained and the input buffer is NULL,
createAudioStreams returns true from the early return and allocates nothing. -/
theorem createAudioStreams_early_return (K : Constants) (o : StreamOutcomes) (e : Engine)
    (hnew : o.newInputStream = true ∧ o.newOutputStream = true)
    (hinit : o.initInputStream = true ∧ o.initOutputStream = true)
    (hdict : o.inFormatDict = true ∧ o.outFormatDict = true)
    (hfmt : o.inFormat.isSome = true ∧ o.outFormat.isSome = true)
    (hbuf : e.mInBuffer = none) :
    (createAudioStreams K o e).1 = true ∧
    (createAudioStreams K o e).2.1.mInBuffer = none ∧
    (createAudioStreams K o e).2.1.mOutBuffer = e.mOutBuffer := by
  obtain ⟨inF, hin⟩ := Option.isSome_iff_exists.mp hfmt.1
  obtain ⟨outF, hout⟩ := Option.isSome_iff_exists.mp hfmt.2
  unfold createAudioStreams
  simp only [hnew.1, hnew.2, hinit.1, hinit.2, hdict.1, hdict.2, hin, hout, hbuf]
  exact ⟨rfl, rfl, rfl⟩

/-- C8, evaluated at the failing input: on a freshly initialised engine, with every
framework call and allocation succeeding, createAudioStreams and initHardware report
success while both buffer handles are still NULL. -/
theorem bringUp_succeeds_without_buffers :
    ∃ e0, init refConstants (some ⟨2, 2, Mode.REAC_SPLIT⟩) true ⟨none, none⟩ = some e0 ∧
      (createAudioStreams refConstants okHardware.streams e0).1 = true ∧
      (createAudioStreams refConstants okHardware.streams e0).2.1.mInBuffer.isSome = false ∧
      (createAudioStreams refConstants okHardware.streams e0).2.1.mOutBuffer.isSome = false ∧
      (initHardware refConstants okHardware e0).1 = true ∧
      (initHardware refConstants okHardware e0).2.mInBuffer.isSome = false ∧
      (initHardware refConstants okHardware e0).2.mOutBuffer.isSome = false := by
  refine ⟨_, rfl, rfl, rfl, rfl, ?_, ?_, ?_⟩
  · decide
  · decide
  · decide

/-! ## C9: the block period -/

/-- The defaults loop does not touch blockSize. -/
theorem channelDefaults_fold_blockSize (l : List Nat) (e : Engine) :
    (l.foldl channelDefault e).blockSize = e.blockSize := by
  induction l generalizing e with
  | nil => rfl
  | cons c cs ih =>
    rw [List.foldl_cons, ih]
    rfl

/-- Registering controls changes neither blockSize nor the per-channel arrays. -/
theorem addControls_frame (created : Nat → Bool) (cs : List AudioControl) (n : Nat)
    (e : Engine) :
    (addControls created cs n e).2.blockSize = e.blockSize ∧
    (addControls created cs n e).2.mVolume = e.mVolume ∧
    (addControls created cs n e).2.mGain = e.mGain ∧
    (addControls created cs n e).2.mMuteOut = e.mMuteOut ∧
    (addControls created cs n e).2.mMuteIn = e.mMuteIn := by
  induction cs generalizing n e with
  | nil => exact ⟨rfl, rfl, rfl, rfl, rfl⟩
  | cons c cs ih =>
    unfold addControls
    split
    · exact ih _ _
    · exact ⟨rfl, rfl, rfl, rfl, rfl⟩

theorem initControls_blockSize (o : ControlOutcomes) (e : Engine) :
    (initControls o e).2.blockSize = e.blockSize := by
  unfold initControls
  dsimp only
  split
  · rfl
  · rw [(addControls_frame _ _ _ _).1]
    unfold setChannelDefaults
    rw [channelDefaults_fold_blockSize]

/-- A successful initHardware leaves the block period computed from blockSize and
REAC_SAMPLE_RATE. -/
theorem initHardware_blockTimeoutNS (K : Constants) (o : HardwareOutcomes) (e : Engine)
    (h : (initHardware K o e).1 = true) :
    (initHardware K o e).2.blockTimeoutNS = blockPeriodNS e.blockSize K.REAC_SAMPLE_RATE := by
  obtain ⟨hbs, _, _, _, hrate⟩ :=
    createAudioStreams_frame K o.streams
      (initControls o.controls { e with duringHardwareInit := true }).2
  have hbs0 := initControls_blockSize o.controls { e with duringHardwareInit := true }
  unfold initHardware at h ⊢
  dsimp only at h ⊢
  split at h
  · cases h
  · split at h
    · cases h
    · split at h
      · cases h
      · split at h
        · cases h
        · rename_i h1 h2 h3 h4
          rw [if_neg h1, if_neg h2, if_neg h3, if_neg h4]
          dsimp only
          rw [hbs, hrate, hbs0]

/-- C9: for every 32-bit blockSize and every sampleRate.whole ≥ 1 the 64-bit product
blockSize * 1000000000 does not wrap and the block period is exactly its quotient by
sampleRate.whole, rounded down; this is the value initHardware stores on success and the
value performFormatChange stores on a sample-rate change outside hardware init; for
blockSize = 512 and sampleRate.whole = 44100 it is 11609977. -/
theorem blockPeriodNS_exact (blockSize whole : Nat) (hbs : blockSize < 2 ^ 32)
    (hw : 1 ≤ whole) :
    blockSize * 1000000000 < 2 ^ 64 ∧
    blockPeriodNS blockSize whole = blockSize * 1000000000 / whole ∧
    blockPeriodNS blockSize whole * whole ≤ blockSize * 1000000000 ∧
    blockSize * 1000000000 < (blockPeriodNS blockSize whole + 1) * whole ∧
    (∀ (K : Constants) (o : HardwareOutcomes) (e : Engine),
      e.blockSize = blockSize → K.REAC_SAMPLE_RATE = whole → (initHardware K o e).1 = true →
      (initHardware K o e).2.blockTimeoutNS = blockSize * 1000000000 / whole) ∧
    (∀ (e : Engine) (newFormat : Option StreamFormat) (fraction : Nat),
      e.blockSize = blockSize → e.duringHardwareInit = false →
      (performFormatChange e newFormat (some ⟨whole, fraction⟩)).2.blockTimeoutNS
        = blockSize * 1000000000 / whole) ∧
    blockPeriodNS 512 44100 = 11609977 := by
  have hprod : blockSize * 1000000000 < 2 ^ 64 := by omega
  have hexact : blockPeriodNS blockSize whole = blockSize * 1000000000 / whole := by
    unfold blockPeriodNS u64
    dsimp only
    rw [Nat.mod_eq_of_lt (show blockSize < 2 ^ 64 by omega), Nat.mod_eq_of_lt hprod]
  refine ⟨hprod, hexact, ?_, ?_, ?_, ?_, by decide⟩
  · rw [hexact]
    exact Nat.div_mul_le_self _ _
  · rw [hexact]
    rw [Nat.add_mul, Nat.one_mul]
    exact Nat.lt_div_mul_add (by omega)
  · intro K o e he hK hok
    rw [initHardware_blockTimeoutNS K o e hok, he, hK, hexact]
  · intro e newFormat fraction he hd
    unfold performFormatChange
    simp only [hd, he, hexact]
    rfl

/-- Witness for C9: blockSize = 512 at 44100 Hz. -/
theorem blockPeriodNS_exact_witness :
    512 < 2 ^ 32 ∧ 1 ≤ 44100 ∧ blockPeriodNS 512 44100 = 512 * 1000000000 / 44100 :=
  ⟨by decide, by decide, (blockPeriodNS_exact 512 44100 (by decide) (by decide)).2.1⟩

/-! ## C10: the volume setter and the defaults -/

theorem channelDefault_sets (e : Engine) (c : Nat) : HasDefaults (channelDefault e c) c := by
  unfold HasDefaults channelDefault
  simp

theorem channelDefault_keeps (e : Engine) (c ch : Nat) (h : HasDefaults e ch) :
    HasDefaults (channelDefault e c) ch := by
  by_cases hc : ch = c
  · subst hc
    exact channelDefault_sets e ch
  · unfold HasDefaults channelDefault at *
    simp [Function.update_noteq hc, h.1, h.2.1, h.2.2.1, h.2.2.2]

theorem channelDefaults_fold_keeps (l : List Nat) (e : Engine) (ch : Nat)
    (h : HasDefaults e ch) : HasDefaults (l.foldl channelDefault e) ch := by
  induction l generalizing e with
  | nil => exact h
  | cons c cs ih =>
    rw [List.foldl_cons]
    exact ih _ (channelDefault_keeps e c ch h)

theorem channelDefaults_fold_sets (l : List Nat) (e : Engine) (ch : Nat) (h : ch ∈ l) :
    HasDefaults (l.foldl channelDefault e) ch := by
  induction l generalizing e with
  | nil => cases h
  | cons c cs ih =>
    rw [List.foldl_cons]
    rcases List.mem_cons.mp h with hEq | hIn
    · subst hEq
      exact channelDefaults_fold_keeps cs _ ch (channelDefault_sets e ch)
    · exact ih _ hIn

/-- After initControls has its weak self reference, channels 0..16 hold the defaults. -/
theorem initControls_defaults (o : ControlOutcomes) (e : Engine) (ch : Nat)
    (hweak : o.weakReference = true) (hch : ch ≤ 16) :
    HasDefaults (initControls o e).2 ch := by
  have hset : HasDefaults
      (setChannelDefaults { e with audioControlWeakSelfReference := o.weakReference }) ch := by
    unfold setChannelDefaults
    exact channelDefaults_fold_sets _ _ ch (List.mem_range.mpr (by omega))
  obtain ⟨_, hv, hg, hmo, hmi⟩ := addControls_frame o.created controlsToCreate 0
    (setChannelDefaults { e with audioControlWeakSelfReference := o.weakReference })
  have hic : (initControls o e).2 = (addControls o.created controlsToCreate 0
      (setChannelDefaults { e with audioControlWeakSelfReference := o.weakReference })).2 := by
    unfold initControls
    dsimp only
    split
    · rename_i hno
      rw [hweak] at hno
      cases hno
    · rfl
  unfold HasDefaults at *
  rw [hic, hv, hg, hmo, hmi]
  exact hset

/-- C10: for every control whose channel id c is at most 16 and every value v,
volumeChanged returns success, afterwards mVolume[c] = v, the volume of every other
channel and all gains and mutes are unchanged; and once initControls has obtained its weak
self reference (so before any control exists) every channel 0..16 holds volume = gain =
65535 and muteIn = muteOut = false. -/
theorem volumeChanged_sets_channel (e : Engine) (control : AudioControl) (oldValue v : Int)
    (hc : control.channelID ≤ 16) :
    (volumeChanged e (some control) oldValue v).1 = IOReturn.kIOReturnSuccess ∧
    control.channelID < numChannelSlots ∧
    (volumeChanged e (some control) oldValue v).2.mVolume control.channelID = v ∧
    (∀ c, c ≠ control.channelID →
      (volumeChanged e (some control) oldValue v).2.mVolume c = e.mVolume c) ∧
    (volumeChanged e (some control) oldValue v).2.mGain = e.mGain ∧
    (volumeChanged e (some control) oldValue v).2.mMuteIn = e.mMuteIn ∧
    (volumeChanged e (some control) oldValue v).2.mMuteOut = e.mMuteOut ∧
    volumeChangeHandler (some e) (some control) oldValue v
      = (IOReturn.kIOReturnSuccess, some (volumeChanged e (some control) oldValue v).2) ∧
    (∀ (o : ControlOutcomes) (e0 : Engine) (ch : Nat), o.weakReference = true → ch ≤ 16 →
      (initControls o e0).2.mVolume ch = 65535 ∧ (initControls o e0).2.mGain ch = 65535 ∧
      (initControls o e0).2.mMuteIn ch = false ∧ (initControls o e0).2.mMuteOut ch = false) := by
  refine ⟨rfl, ?_, ?_, ?_, rfl, rfl, rfl, rfl, ?_⟩
  · unfold numChannelSlots
    omega
  · show Function.update e.mVolume control.channelID v control.channelID = v
    exact Function.update_same _ _ _
  · intro c hne
    show Function.update e.mVolume control.channelID v c = e.mVolume c
    exact Function.update_noteq hne _ _
  · intro o e0 ch hweak hch
    exact initControls_defaults o e0 ch hweak hch

/-- Witness for C10: setting the volume of channel 16 after initControls. -/
theorem volumeChanged_sets_channel_witness :
    volumeControl16.channelID ≤ 16 ∧
    (volumeChanged (initControls okHardware.controls coldStereo).2 (some volumeControl16)
      65535 1234).1 = IOReturn.kIOReturnSuccess ∧
    (volumeChanged (initControls okHardware.controls coldStereo).2 (some volumeControl16)
      65535 1234).2.mVolume 16 = 1234 :=
  ⟨by decide,
    (volumeChanged_sets_channel (initControls okHardware.controls coldStereo).2 volumeControl16
      65535 1234 (by decide)).1,
    (volumeChanged_sets_channel (initControls okHardware.controls coldStereo).2 volumeControl16
      65535 1234 (by decide)).2.2.1⟩

/-! ## C11: the setters and the channel id -/

/-- The block advance leaves the schedule and the block period alone. -/
theorem advanceBlock_timing (e : Engine) :
    (advanceBlock e).nextTime = e.nextTime ∧
    (advanceBlock e).blockTimeoutNS = e.blockTimeoutNS := by
  unfold advanceBlock takeTimeStamp
  dsimp only
  split <;> exact ⟨rfl, rfl⟩

/-- The signed reading of a 64-bit value differs from it by a multiple of 2^64, so the
interval handed to setTimeout is blockTimeoutNS + nextTime - thisTimeNS reduced to 64
bits. -/
theorem rearm_interval (bt s T : Nat) :
    (((bt : Int) + (toSInt64 s - toSInt64 T)) % 2 ^ 64).toNat
      = (((bt : Int) + (s : Int) - (T : Int)) % 2 ^ 64).toNat := by
  unfold toSInt64
  split <;> split <;> omega

/-- One timer fire on an engine. -/
theorem ourTimerFired_fire (e : Engine) (T : Nat) :
    ∃ e1, ourTimerFired (some e) T
        = (some e1, some ((((e.blockTimeoutNS : Int) + (e.nextTime : Int) - (T : Int))
            % 2 ^ 64).toNat)) ∧
      e1.nextTime = (e.nextTime + e.blockTimeoutNS) % 2 ^ 64 ∧
      e1.blockTimeoutNS = e.blockTimeoutNS := by
  obtain ⟨hn, hb⟩ := advanceBlock_timing e
  refine ⟨{ advanceBlock e with
      nextTime := u64 ((advanceBlock e).nextTime + (advanceBlock e).blockTimeoutNS) },
    ?_, ?_, ?_⟩
  · unfold ourTimerFired
    dsimp only
    rw [rearm_interval, hn, hb]
  · show u64 ((advanceBlock e).nextTime + (advanceBlock e).blockTimeoutNS) = _
    rw [hn, hb]
    rfl
  · exact hb

/-- The schedule and the intervals after a run of fires. -/
theorem timerFires_schedule (times : List Nat) (e : Engine) (ht : e.nextTime < 2 ^ 64) :
    (timerFires e times).1.nextTime
      = (e.nextTime + times.length * e.blockTimeoutNS) % 2 ^ 64 ∧
    (timerFires e times).1.blockTimeoutNS = e.blockTimeoutNS ∧
    (timerFires e times).2.length = times.length ∧
    ∀ (i T : Nat), times[i]? = some T →
      (timerFires e times).2[i]?
        = some ((((e.blockTimeoutNS : Int)
            + (((e.nextTime + i * e.blockTimeoutNS) % 2 ^ 64 : Nat) : Int) - (T : Int))
            % 2 ^ 64).toNat) := by
  induction times generalizing e with
  | nil =>
    refine ⟨?_, rfl, rfl, ?_⟩
    · show e.nextTime = _
      rw [List.length_nil, Nat.zero_mul, Nat.add_zero, Nat.mod_eq_of_lt ht]
    · intro i T h
      simp at h
  | cons T0 Ts ih =>
    obtain ⟨e1, hfire, hn1, hb1⟩ := ourTimerFired_fire e T0
    have hstep : timerFires e (T0 :: Ts)
        = ((timerFires e1 Ts).1,
            (((e.blockTimeoutNS : Int) + (e.nextTime : Int) - (T0 : Int)) % 2 ^ 64).toNat
              :: (timerFires e1 Ts).2) := by
      rw [timerFires, hfire]
    obtain ⟨ihn, ihb, ihl, ihi⟩ := ih e1 (by rw [hn1]; exact Nat.mod_lt _ (by decide))
    rw [hstep]
    refine ⟨?_, ?_, ?_, ?_⟩
    · show (timerFires e1 Ts).1.nextTime = _
      rw [ihn, hn1, hb1, List.length_cons, Nat.succ_mul]
      omega
    · show (timerFires e1 Ts).1.blockTimeoutNS = _
      rw [ihb, hb1]
    · show ((_ :: (timerFires e1 Ts).2) : List Nat).length = _
      rw [List.length_cons, List.length_cons, ihl]
    · intro i T h
      cases i with
      | zero =>
        simp only [List.getElem?_cons_zero, Option.some.injEq] at h
        subst h
        simp only [List.getElem?_cons_zero, Nat.zero_mul, Nat.add_zero,
          Nat.mod_eq_of_lt ht]
      | succ k =>
        simp only [List.getElem?_cons_succ] at h
        have hk := ihi k T h
        simp only [List.getElem?_cons_succ]
        rw [hk, hn1, hb1]
        have harr : ((e.nextTime + e.blockTimeoutNS) % 2 ^ 64 + k * e.blockTimeoutNS) % 2 ^ 64
            = (e.nextTime + (k + 1) * e.blockTimeoutNS) % 2 ^ 64 := by
          rw [Nat.succ_mul]
          omega
        rw [harr]

/-- C12: drift-corrected re-arm.  For every engine with scheduled time t0 = nextTime (a
64-bit value) and every sequence of observed fire times, after N fires nextTime is
t0 + N * blockTimeoutNS reduced to 64 bits, whatever the fire times were; the i-th fire
(counted from 0) hands setTimeout the interval blockTimeoutNS + (s - T_i) reduced to 64
bits, where s = t0 + i * blockTimeoutNS (64-bit) is the value of nextTime before that
fire increments it. -/
theorem timer_schedule_on_grid (e : Engine) (times : List Nat) (ht : e.nextTime < 2 ^ 64) :
    (timerFires e times).1.nextTime
      = (e.nextTime + times.length * e.blockTimeoutNS) % 2 ^ 64 ∧
    (∀ others : List Nat, others.length = times.length →
      (timerFires e others).1.nextTime = (timerFires e times).1.nextTime) ∧
    (timerFires e times).2.length = times.length ∧
    (∀ (i T : Nat), times[i]? = some T →
      (timerFires e times).2[i]?
        = some ((((e.blockTimeoutNS : Int)
            + (((e.nextTime + i * e.blockTimeoutNS) % 2 ^ 64 : Nat) : Int) - (T : Int))
            % 2 ^ 64).toNat)) ∧
    (∀ T : Nat, ∃ e1, ourTimerFired (some e) T
        = (some e1, some ((((e.blockTimeoutNS : Int) + (e.nextTime : Int) - (T : Int))
            % 2 ^ 64).toNat)) ∧
      e1.nextTime = (e.nextTime + e.blockTimeoutNS) % 2 ^ 64) := by
  obtain ⟨hn, _, hl, hi⟩ := timerFires_schedule times e ht
  refine ⟨hn, ?_, hl, hi, ?_⟩
  · intro others hlen
    rw [(timerFires_schedule others e ht).1, hn, hlen]
  · intro T
    obtain ⟨e1, h1, h2, _⟩ := ourTimerFired_fire e T
    exact ⟨e1, h1, h2⟩

/-- Witness for C12: three fires, 100 ns late, 1000 ns early and 500 ns late, leave the
schedule at 1000000 + 3 * 250000 and re-arm with 249900, 251000 and 249500 ns. -/
theorem timer_schedule_on_grid_witness :
    timerEngine.nextTime < 2 ^ 64 ∧
    (timerFires timerEngine [1000100, 1249000, 1500500]).1.nextTime = 1750000 ∧
    (timerFires timerEngine [1000100, 1249000, 1500500]).2 = [249900, 251000, 249500] := by
  have h := timer_schedule_on_grid timerEngine [1000100, 1249000, 1500500] (by decide)
  refine ⟨by decide, h.1, ?_⟩
  decide

end REAC
